import Mathlib

/-!
Verification of the process-wide coordination layer of the ninja reverse proxy
(src/openai/src/context.rs): the Context singleton, the per-challenge-type HAR
evidence store with file watches, and the preauth credential cache.

Shallow embedding conventions:
- The filesystem is an association list from path strings to file contents.
- Panics (Rust expect / panic) are Except.error carrying the panic message.
- Logging and the external collaborator calls (arkose har clear, the
  invalidation hook) are recorded as an explicit effect trace.
- The moka sync cache is modelled from its documented semantics: entries carry
  their insertion time; per-entry operations (get_with, iter) check expiry
  lazily at access time, while the aggregate weighted_size counter reflects
  entries not yet evicted by housekeeping, so it still counts expired entries
  until maintenance runs.  Size-based eviction (max_capacity 1000) is
  asynchronous in moka and never immediate, so it is not modelled as part of
  any single operation.
- Randomness (rand IteratorRandom choose) is modelled by an explicit random
  index: selection picks element (rng mod n) of the live-entry list, which is
  the uniform selection among n elements for a uniformly distributed rng.
-/

namespace NinjaContext

/-- arkose::Type — the closed enumeration of challenge types. -/
inductive ArkoseType
  | Chat3
  | Chat4
  | Auth0
  | Platform
deriving DecidableEq, Repr, Inhabited

/-- Observable side effects of the coordination layer: log lines at the three
levels used by context.rs, and the call into the external evidence-cache
invalidator (arkose har clear). -/
inductive Effect
  | logInfo (msg : String)
  | logWarn (msg : String)
  | logError (msg : String)
  | harClear (path : String)
deriving DecidableEq, Repr

/-- TTL of the preauth cookie cache: Duration::from_secs(3600 * 24). -/
def preauthTTL : Nat := 3600 * 24

/-- One entry of the moka cache: key, value and the instant of insertion
(seconds).  moka expires an entry once the time elapsed since insertion
reaches the configured time_to_live. -/
structure PreauthEntry where
  key : String
  value : String
  insertedAt : Nat
deriving DecidableEq, Repr

/-- An entry is live at time now when its age is still below the TTL. -/
def PreauthEntry.isLive (now : Nat) (e : PreauthEntry) : Bool :=
  decide (now < e.insertedAt + preauthTTL)

/-- The moka sync Cache of preauth cookies (String to String, capacity 1000,
TTL 24 h), modelled as the list of entries not yet evicted by housekeeping. -/
structure PreauthCache where
  entries : List PreauthEntry
deriving DecidableEq, Repr

namespace PreauthCache

/-- The live (non-expired) entries at time now: what per-entry accesses such
as iteration observe, since moka checks expiry lazily per entry at access
time. -/
def liveEntries (c : PreauthCache) (now : Nat) : List PreauthEntry :=
  c.entries.filter (fun e => e.isLive now)

/-- The live entry for a given key, if any (what moka get observes). -/
def liveEntryFor (c : PreauthCache) (k : String) (now : Nat) : Option PreauthEntry :=
  (c.liveEntries now).find? (fun e => e.key == k)

/-- moka Cache::get_with — insert-if-absent.  When a live entry for the key
exists it is returned untouched and the init closure is never run; otherwise
the closure runs (producing its effects) and its value is inserted with the
current time, replacing any expired leftover slot for that key. -/
def getWith (c : PreauthCache) (k v : String) (eff : List Effect) (now : Nat) :
    PreauthCache × List Effect :=
  match c.liveEntryFor k now with
  | some _ => (c, [])
  | none =>
      (⟨c.entries.filter (fun e => !(e.key == k)) ++ [⟨k, v, now⟩]⟩, eff)

/-- moka Cache::weighted_size — the approximate total weight of entries in
the cache.  Per the moka documentation this counter is maintained by the
housekeeper and may be stale: entries whose TTL has elapsed keep contributing
until maintenance evicts them, so it is NOT filtered through isLive. -/
def weighted_size (c : PreauthCache) : Nat :=
  c.entries.length

end PreauthCache

/-- CfTurnstile — Cloudflare Turnstile site/secret key pair. -/
structure CfTurnstile where
  site_key : String
  secret_key : String
deriving DecidableEq, Repr

/-- The externally constructed load-balanced client pool (balancer.rs is an
external collaborator); opaque except for handing out the next client. -/
structure ClientLoadBalancer where
  nextHandle : Nat
deriving DecidableEq, Repr

/-- ClientLoadBalancer::next — hand out the next client handle. -/
def ClientLoadBalancer.next (lb : ClientLoadBalancer) : Nat :=
  lb.nextHandle

/-- The Context aggregate (struct Context of context.rs).  The api_prefix
field of the source is spelled apiPrefix here. -/
structure Context where
  client_load : Option ClientLoadBalancer
  auth_client_load : Option ClientLoadBalancer
  arkose_solver : Option String
  arkose_har_upload_key : Option String
  auth_key : Option String
  cf_turnstile : Option CfTurnstile
  apiPrefix : Option String
  arkose_endpoint : Option String
  preauth_cache : Option PreauthCache
deriving DecidableEq, Repr

namespace Context

/-- Context::enable_preauth — returns weighted_size() > 0 when the cache is
present, false otherwise. -/
def enable_preauth (ctx : Context) : Bool :=
  match ctx.preauth_cache with
  | some c => decide (0 < c.weighted_size)
  | none => false

/-- Context::push_preauth_cookie — get_with on the cache when present; the
init closure logs the push and yields the value, so a hit neither overwrites
nor logs.  Returns the updated context and the emitted effects. -/
def push_preauth_cookie (ctx : Context) (key value : String) (now : Nat) :
    Context × List Effect :=
  match ctx.preauth_cache with
  | none => (ctx, [])
  | some c =>
      let r := c.getWith key value [Effect.logInfo ("Push PreAuth Cookie: " ++ value)] now
      ({ ctx with preauth_cache := some r.1 }, r.2)

/-- Context::pop_preauth_cookie — when the cache is present, choose one entry
of the (lazily expiry-filtered) iterator uniformly at random and return its
value; the entry is not removed (iteration reads through a shared reference).
rng is the sampled random index. -/
def pop_preauth_cookie (ctx : Context) (now rng : Nat) : Option String :=
  match ctx.preauth_cache with
  | none => none
  | some c =>
      let live := c.liveEntries now
      if h : live.length = 0 then none
      else some (live.get ⟨rng % live.length, Nat.mod_lt _ (Nat.pos_of_ne_zero h)⟩).value

/-- Context::client — panics (expect) when the load balancer was never set. -/
def client (ctx : Context) : Except String Nat :=
  match ctx.client_load with
  | some lb => .ok lb.next
  | none => .error "The load balancer client is not initialized"

/-- Context::auth_client — panics (expect) when the auth load balancer was
never set. -/
def auth_client (ctx : Context) : Except String Nat :=
  match ctx.auth_client_load with
  | some lb => .ok lb.next
  | none => .error "The load balancer auth client is not initialized"

end Context

/-- The local filesystem, restricted to what context.rs touches: a finite map
from path strings to file contents. -/
structure Fs where
  files : List (String × String)
deriving DecidableEq, Repr

/-- std::fs::read — the content at a path, if the file exists. -/
def Fs.read (fs : Fs) (p : String) : Option String :=
  (fs.files.find? (fun q => q.1 == p)).map (fun q => q.2)

/-- Path::is_file. -/
def Fs.isFile (fs : Fs) (p : String) : Bool :=
  (fs.read p).isSome

/-- std::fs::File::create on a path that does not exist yet: an empty file
appears. -/
def Fs.createEmpty (fs : Fs) (p : String) : Fs :=
  ⟨fs.files ++ [(p, "")]⟩

/-- struct Har — evidence record: file path, freshness state, and the watch
subscription (modelled by the watched path string). -/
structure Har where
  path : String
  state : Bool
  hotwatch : String
deriving DecidableEq, Repr

/-- The HAR static: RwLock<HashMap<arkose::Type, Har>>, as an association
list. -/
def harLookup (t : ArkoseType) (m : List (ArkoseType × Har)) : Option Har :=
  (m.find? (fun p => decide (p.1 = t))).map (fun p => p.2)

/-- watch_har_file — start a Hotwatch subscription on a path.  The underlying
notify watcher fails on a path that does not exist, and the source calls
expect on the result, so watch setup succeeds exactly when the path exists
and is otherwise the fatal panic at the expect message. -/
def watch_har_file (fs : Fs) (path : String) : Except String String :=
  if fs.isFile path then .ok path else .error "failed to watch file!"

/-- Result of init_har: the record, the filesystem afterwards, and the
emitted effects. -/
structure InitHarOut where
  har : Har
  fs : Fs
  effects : List Effect
deriving DecidableEq, Repr

/-- init_har — resolve and bootstrap one evidence file.  An explicitly
configured path is trusted (state true, content never read).  Otherwise the
default file under the home directory is read when it exists (state = content
non-empty) and created empty (state false) when it does not; in both branches
a watch is started on the resolved path.  home_dir() failure, read/create
failure and watch failure are fatal expects. -/
def init_har (_t : ArkoseType) (path : Option String) (defaultFilename : String)
    (homeDir : Option String) (fs : Fs) : Except String InitHarOut :=
  match path with
  | some filePath =>
      match watch_har_file fs filePath with
      | .error e => .error e
      | .ok w => .ok ⟨⟨filePath, true, w⟩, fs, []⟩
  | none =>
      match homeDir with
      | none => .error "Failed to get home directory"
      | some home =>
          let defaultPath := home ++ "/" ++ defaultFilename
          match fs.read defaultPath with
          | some content =>
              match watch_har_file fs defaultPath with
              | .error e => .error e
              | .ok w => .ok ⟨⟨defaultPath, !(content == ""), w⟩, fs, []⟩
          | none =>
              let fs2 := fs.createEmpty defaultPath
              match watch_har_file fs2 defaultPath with
              | .error e => .error e
              | .ok w =>
                  .ok ⟨⟨defaultPath, false, w⟩, fs2,
                    [Effect.logInfo ("Create default HAR empty file: " ++ defaultPath)]⟩

/-- The process-global mutable state: the CTX and HAR OnceLocks, the
filesystem, and the accumulated effect trace. -/
structure GlobalState where
  ctx : Option Context
  har : Option (List (ArkoseType × Har))
  fs : Fs
  effects : List Effect
deriving DecidableEq, Repr

/-- External collaborators fixed by the environment: the home directory and
the outcomes of the two ClientLoadBalancer constructors (none = construction
failure, which the source turns into a fatal expect). -/
structure Env where
  homeDir : Option String
  newClientResult : Option ClientLoadBalancer
  newAuthClientResult : Option ClientLoadBalancer
deriving DecidableEq, Repr

/-- ContextArgs, restricted to the fields Context::new consumes.  Builder
defaults leave every one of these fields None. -/
structure ContextArgs where
  arkose_chat3_har_file : Option String := none
  arkose_chat4_har_file : Option String := none
  arkose_auth_har_file : Option String := none
  arkose_platform_har_file : Option String := none
  apiPrefix : Option String := none
  auth_key : Option String := none
  cf_site_key : Option String := none
  cf_secret_key : Option String := none
  arkose_endpoint : Option String := none
  arkose_har_upload_key : Option String := none
  arkose_solver : Option String := none
  pbind : Option String := none
deriving DecidableEq, Repr

/-- ContextArgs::builder().build() — the all-default configuration. -/
def ContextArgs.default : ContextArgs := {}

/-- Context::new — bootstrap the four evidence files, publish the HAR map
(HAR.set panics when the map was already set), conditionally allocate the
preauth cache, and build the Context with the two load balancers (whose
construction failure is a fatal expect). -/
def Context.new (args : ContextArgs) (env : Env) (st : GlobalState) :
    Except String (Context × GlobalState) :=
  match init_har .Chat3 args.arkose_chat3_har_file ".chat3.openai.com.har"
      env.homeDir st.fs with
  | .error e => .error e
  | .ok r3 =>
  match init_har .Chat4 args.arkose_chat4_har_file ".chat4.openai.com.har"
      env.homeDir r3.fs with
  | .error e => .error e
  | .ok r4 =>
  match init_har .Auth0 args.arkose_auth_har_file ".auth.openai.com.har"
      env.homeDir r4.fs with
  | .error e => .error e
  | .ok ra =>
  match init_har .Platform args.arkose_platform_har_file ".platform.openai.com.har"
      env.homeDir ra.fs with
  | .error e => .error e
  | .ok rp =>
  if st.har.isSome then
    .error "Failed to set har map"
  else
    let harMap : List (ArkoseType × Har) :=
      [(.Chat3, r3.har), (.Chat4, r4.har), (.Auth0, ra.har), (.Platform, rp.har)]
    let preauthEffects :=
      if args.pbind.isSome then [Effect.logInfo "Preauth MITM server enabled"] else []
    let preauthCache : Option PreauthCache :=
      if args.pbind.isSome then some ⟨[]⟩ else none
    match env.newClientResult with
    | none => .error "Failed to initialize the requesting client"
    | some clientLB =>
    match env.newAuthClientResult with
    | none => .error "Failed to initialize the requesting oauth client"
    | some authLB =>
        .ok ({ client_load := some clientLB,
               auth_client_load := some authLB,
               arkose_endpoint := args.arkose_endpoint,
               arkose_solver := args.arkose_solver,
               arkose_har_upload_key := args.arkose_har_upload_key,
               cf_turnstile := args.cf_site_key.bind (fun sk =>
                 args.cf_secret_key.map (fun sec => ⟨sk, sec⟩)),
               apiPrefix := args.apiPrefix,
               auth_key := args.auth_key,
               preauth_cache := preauthCache },
             { st with
                har := some harMap,
                fs := rp.fs,
                effects := st.effects ++ r3.effects ++ r4.effects ++ ra.effects
                  ++ rp.effects ++ preauthEffects })

/-- init — CTX.set(Context::new(args)): the argument Context::new(args) is
evaluated first (with all of its side effects and possible panics); only when
it returns does CTX.set run, and a failed set (CTX already filled) logs
"Failed to initialize context" and discards the freshly built value. -/
def init (args : ContextArgs) (env : Env) (st : GlobalState) :
    Except String GlobalState :=
  match Context.new args env st with
  | .error e => .error e
  | .ok (c, st2) =>
      match st2.ctx with
      | some _ =>
          .ok { st2 with effects := st2.effects ++ [Effect.logError "Failed to initialize context"] }
      | none => .ok { st2 with ctx := some c }

/-- get_instance — CTX.get_or_init: return the published Context, lazily
constructing it from the all-default ContextArgs when CTX is still empty.
OnceLock guarantees the initializer runs at most once even under concurrent
first access; the embedding models get_or_init as one atomic step. -/
def get_instance (env : Env) (st : GlobalState) :
    Except String (Context × GlobalState) :=
  match st.ctx with
  | some c => .ok (c, st)
  | none =>
      match Context.new ContextArgs.default env st with
      | .error e => .error e
      | .ok (c, st2) => .ok (c, { st2 with ctx := some c })

/-- Context::arkose_har_path — read (state, path) of the record for a type
under the shared read lock; the two expects (lock present, record present)
are fatal. -/
def arkose_har_path (st : GlobalState) (t : ArkoseType) : Except String (Bool × String) :=
  match st.har with
  | none => .error "Failed to get har lock"
  | some m =>
      match harLookup t m with
      | some h => .ok (h.state, h.path)
      | none => .error "Failed to get har path"

/-- A path delivered inside a watch event: paths are OS strings, displayable
always, convertible to a str only when valid unicode. -/
structure EventPath where
  display : String
  toStr : Option String
deriving DecidableEq, Repr

/-- hotwatch EventKind, restricted to the distinction the callback makes. -/
inductive WatchEventKind
  | Modify
  | Other
deriving DecidableEq, Repr

/-- A hotwatch Event: kind and affected paths. -/
structure WatchEvent where
  kind : WatchEventKind
  paths : List EventPath
deriving DecidableEq, Repr

/-- Set the freshness state of the record for type t to true (the effect of
har.state = true through get_mut). -/
def harSetFresh (t : ArkoseType) (m : List (ArkoseType × Har)) : List (ArkoseType × Har) :=
  m.map (fun p => if p.1 = t then (p.1, { p.2 with state := true }) else p)

/-- One iteration of the per-path body of the watch closure: log the change,
take the write lock (HAR.get expect is fatal when HAR is unset), and when the
map holds a record for the type, set its state true and call the invalidator
(arkose har clear) with the path, logging a warning instead when the path is
not convertible to a str. -/
def watchCallbackPaths (t : ArkoseType) :
    List EventPath → GlobalState → Except String GlobalState
  | [], st => .ok st
  | p :: ps, st =>
      match st.har with
      | none => .error "Failed to get har lock"
      | some m =>
          match harLookup t m with
          | none =>
              watchCallbackPaths t ps
                { st with effects := st.effects
                    ++ [Effect.logInfo ("HAR file changes observed: " ++ p.display)] }
          | some _ =>
              let tail : List Effect :=
                match p.toStr with
                | some s => [Effect.harClear s]
                | none => [Effect.logWarn "Failed to convert path to string"]
              watchCallbackPaths t ps
                { st with
                    har := some (harSetFresh t m),
                    effects := st.effects
                      ++ [Effect.logInfo ("HAR file changes observed: " ++ p.display)]
                      ++ tail }

/-- The watch closure installed by watch_har_file for type t: on a Modify
event it runs the per-path body for each event path; other kinds are
ignored. -/
def har_watch_callback (t : ArkoseType) (ev : WatchEvent) (st : GlobalState) :
    Except String GlobalState :=
  match ev.kind with
  | .Modify => watchCallbackPaths t ev.paths st
  | .Other => .ok st

/-! ### Helper lemmas about the filesystem and bootstrap -/

/-- Creating the missing empty file makes it readable as empty. -/
lemma Fs.read_createEmpty_self (fs : Fs) (p : String) (h : fs.read p = none) :
    (fs.createEmpty p).read p = some "" := by
  unfold Fs.read Fs.createEmpty
  unfold Fs.read at h
  rw [List.find?_append]
  rcases hf : fs.files.find? (fun q => q.1 == p) with _ | q
  · rw [hf]
    simp [List.find?_cons]
  · rw [hf] at h
    simp at h

/-- Creating a file does not remove any existing file. -/
lemma Fs.isFile_createEmpty_mono (fs : Fs) (p q : String) (h : fs.isFile q = true) :
    (fs.createEmpty p).isFile q = true := by
  unfold Fs.isFile Fs.read Fs.createEmpty
  unfold Fs.isFile Fs.read at h
  rw [List.find?_append]
  rcases hf : fs.files.find? (fun r => r.1 == q) with _ | r
  · rw [hf] at h
    simp at h
  · rw [hf]
    simp

/-- A successful init_har leaves the record path existing on the resulting
filesystem (in every branch the watch was started on that path, and watch
setup succeeds only on an existing path). -/
lemma init_har_path_exists (t : ArkoseType) (po : Option String) (dfn : String)
    (hd : Option String) (fs : Fs) (out : InitHarOut)
    (h : init_har t po dfn hd fs = .ok out) :
    out.fs.isFile out.har.path = true := by
  cases po with
  | some p =>
      by_cases hf : fs.isFile p
      · simp [init_har, watch_har_file, hf] at h
        rw [← h]
        exact hf
      · simp [init_har, watch_har_file, hf] at h
  | none =>
      cases hd with
      | none => simp [init_har] at h
      | some home =>
          rcases hr : fs.read (home ++ "/" ++ dfn) with _ | content
          · have hf : (fs.createEmpty (home ++ "/" ++ dfn)).isFile (home ++ "/" ++ dfn) = true := by
              simp [Fs.isFile, Fs.read_createEmpty_self fs _ hr]
            simp [init_har, watch_har_file, hr, hf] at h
            rw [← h]
            exact hf
          · have hf : fs.isFile (home ++ "/" ++ dfn) = true := by
              simp [Fs.isFile, hr]
            simp [init_har, watch_har_file, hr, hf] at h
            rw [← h]
            exact hf

/-- A successful init_har only ever adds files: existing files survive. -/
lemma init_har_fs_mono (t : ArkoseType) (po : Option String) (dfn : String)
    (hd : Option String) (fs : Fs) (out : InitHarOut) (q : String)
    (h : init_har t po dfn hd fs = .ok out) (hq : fs.isFile q = true) :
    out.fs.isFile q = true := by
  cases po with
  | some p =>
      by_cases hf : fs.isFile p
      · simp [init_har, watch_har_file, hf] at h
        rw [← h]
        exact hq
      · simp [init_har, watch_har_file, hf] at h
  | none =>
      cases hd with
      | none => simp [init_har] at h
      | some home =>
          rcases hr : fs.read (home ++ "/" ++ dfn) with _ | content
          · have hf : (fs.createEmpty (home ++ "/" ++ dfn)).isFile (home ++ "/" ++ dfn) = true := by
              simp [Fs.isFile, Fs.read_createEmpty_self fs _ hr]
            simp [init_har, watch_har_file, hr, hf] at h
            rw [← h]
            exact Fs.isFile_createEmpty_mono fs _ q hq
          · have hf : fs.isFile (home ++ "/" ++ dfn) = true := by
              simp [Fs.isFile, hr]
            simp [init_har, watch_har_file, hr, hf] at h
            rw [← h]
            exact hq

/-- Inversion of a successful Context::new: the four bootstraps succeeded in
sequence, the HAR lock was still unset (otherwise HAR.set panics), both load
balancer constructions succeeded, and the produced Context and state have
the recorded shape. -/
lemma Context.new_ok (args : ContextArgs) (env : Env) (st : GlobalState)
    (c : Context) (st2 : GlobalState)
    (h : Context.new args env st = .ok (c, st2)) :
    ∃ r3 r4 ra rp clientLB authLB,
      init_har .Chat3 args.arkose_chat3_har_file ".chat3.openai.com.har"
          env.homeDir st.fs = .ok r3 ∧
      init_har .Chat4 args.arkose_chat4_har_file ".chat4.openai.com.har"
          env.homeDir r3.fs = .ok r4 ∧
      init_har .Auth0 args.arkose_auth_har_file ".auth.openai.com.har"
          env.homeDir r4.fs = .ok ra ∧
      init_har .Platform args.arkose_platform_har_file ".platform.openai.com.har"
          env.homeDir ra.fs = .ok rp ∧
      st.har = none ∧
      env.newClientResult = some clientLB ∧
      env.newAuthClientResult = some authLB ∧
      c = { client_load := some clientLB,
            auth_client_load := some authLB,
            arkose_endpoint := args.arkose_endpoint,
            arkose_solver := args.arkose_solver,
            arkose_har_upload_key := args.arkose_har_upload_key,
            cf_turnstile := args.cf_site_key.bind (fun sk =>
              args.cf_secret_key.map (fun sec => ⟨sk, sec⟩)),
            apiPrefix := args.apiPrefix,
            auth_key := args.auth_key,
            preauth_cache := if args.pbind.isSome then some ⟨[]⟩ else none } ∧
      st2 = { st with
                har := some [(.Chat3, r3.har), (.Chat4, r4.har),
                             (.Auth0, ra.har), (.Platform, rp.har)],
                fs := rp.fs,
                effects := st.effects ++ r3.effects ++ r4.effects ++ ra.effects
                  ++ rp.effects
                  ++ (if args.pbind.isSome then [Effect.logInfo "Preauth MITM server enabled"] else []) } := by
  rcases h3 : init_har .Chat3 args.arkose_chat3_har_file ".chat3.openai.com.har"
      env.homeDir st.fs with e | r3
  · simp [Context.new, h3] at h
  rcases h4 : init_har .Chat4 args.arkose_chat4_har_file ".chat4.openai.com.har"
      env.homeDir r3.fs with e | r4
  · simp [Context.new, h3, h4] at h
  rcases ha : init_har .Auth0 args.arkose_auth_har_file ".auth.openai.com.har"
      env.homeDir r4.fs with e | ra
  · simp [Context.new, h3, h4, ha] at h
  rcases hp : init_har .Platform args.arkose_platform_har_file ".platform.openai.com.har"
      env.homeDir ra.fs with e | rp
  · simp [Context.new, h3, h4, ha, hp] at h
  rcases hhar : st.har with _ | m
  · rcases hcl : env.newClientResult with _ | clientLB
    · simp [Context.new, h3, h4, ha, hp, hhar, hcl] at h
    rcases hal : env.newAuthClientResult with _ | authLB
    · simp [Context.new, h3, h4, ha, hp, hhar, hcl, hal] at h
    simp only [Context.new, h3, h4, ha, hp, hhar, hcl, hal, Option.isSome_none,
      Bool.false_eq_true, if_false, Except.ok.injEq, Prod.mk.injEq] at h
    exact ⟨r3, r4, ra, rp, clientLB, authLB, rfl, h4, ha, hp, rfl, rfl, rfl,
      h.1.symm, h.2.symm⟩
  · simp [Context.new, h3, h4, ha, hp, hhar] at h

/-! ### Helper lemmas about the preauth cache -/

/-- After an insert for key k (which drops stale slots for k and appends the
new entry), the live entry for k is the inserted one, as long as its TTL has
not elapsed. -/
lemma liveEntryFor_insert (l : List PreauthEntry) (k v : String) (t1 t2 : Nat)
    (h : t2 < t1 + preauthTTL) :
    PreauthCache.liveEntryFor ⟨l.filter (fun e => !(e.key == k)) ++ [⟨k, v, t1⟩]⟩ k t2
      = some ⟨k, v, t1⟩ := by
  unfold PreauthCache.liveEntryFor PreauthCache.liveEntries
  induction l with
  | nil =>
      simp [PreauthEntry.isLive, h]
  | cons e es ih =>
      by_cases hk : e.key == k
      · simpa [List.filter_cons, hk] using ih
      · by_cases hl : e.isLive t2
        · simpa [List.filter_cons, hk, hl, List.find?_cons] using ih
        · simpa [List.filter_cons, hk, hl] using ih

/-! ### C2 — pop_preauth_cookie -/

/-- C2: pop_preauth_cookie returns none when the preauth cache is absent or
holds no live entry; otherwise it returns the value of one of the live
(non-expired) entries — the one selected by the uniformly sampled random
index — and every live entry is selectable by some random draw.  The call
reads the cache through a shared reference and removes nothing (pop is a
pure function of the context here). -/
theorem pop_preauth_cookie_spec (ctx : Context) (now rng : Nat) :
    (ctx.preauth_cache = none → ctx.pop_preauth_cookie now rng = none) ∧
    (∀ c, ctx.preauth_cache = some c →
      (c.liveEntries now = [] → ctx.pop_preauth_cookie now rng = none) ∧
      (c.liveEntries now ≠ [] →
        ∃ e ∈ c.liveEntries now, ctx.pop_preauth_cookie now rng = some e.value) ∧
      (∀ e ∈ c.liveEntries now, ∃ r, ctx.pop_preauth_cookie now r = some e.value)) := by
  refine ⟨fun h => by simp [Context.pop_preauth_cookie, h], fun c hc => ⟨?_, ?_, ?_⟩⟩
  · intro hl
    simp [Context.pop_preauth_cookie, hc, hl]
  · intro hl
    have hlen : (c.liveEntries now).length ≠ 0 := by
      simpa [List.length_eq_zero] using hl
    refine ⟨(c.liveEntries now).get
      ⟨rng % (c.liveEntries now).length, Nat.mod_lt _ (Nat.pos_of_ne_zero hlen)⟩,
      List.get_mem _ _ _, ?_⟩
    simp [Context.pop_preauth_cookie, hc, hlen]
  · intro e he
    obtain ⟨i, hi, hie⟩ := List.mem_iff_getElem.mp he
    have hlen : (c.liveEntries now).length ≠ 0 := by
      intro h0
      exact absurd hi (by omega)
    refine ⟨i, ?_⟩
    have hmod : i % (c.liveEntries now).length = i := Nat.mod_eq_of_lt hi
    simp only [Context.pop_preauth_cookie, hc, dif_neg hlen]
    simp [List.get_eq_getElem, hmod, hie]

/-- C2 witness: on a context with no preauth cache, pop returns none. -/
theorem pop_preauth_cookie_spec_witness :
    Context.pop_preauth_cookie
      ⟨none, none, none, none, none, none, none, none, none⟩ 0 0 = none :=
  (pop_preauth_cookie_spec ⟨none, none, none, none, none, none, none, none, none⟩ 0 0).1 rfl

/-! ### C3 — push_preauth_cookie idempotence -/

/-- C3: with the cache enabled and no live entry for k, push(k, v1) at time
t1 followed by push(k, v2) at time t2 before the first entry expires leaves
the state exactly as after the first push (no overwrite), emits no effect on
the second push (the get_with init closure never runs, so nothing is
logged), and the cached live value for k is still v1. -/
theorem push_preauth_cookie_idempotent (ctx : Context) (c : PreauthCache)
    (k v1 v2 : String) (t1 t2 : Nat)
    (hc : ctx.preauth_cache = some c)
    (hno : c.liveEntryFor k t1 = none)
    (ht : t2 < t1 + preauthTTL) :
    ((ctx.push_preauth_cookie k v1 t1).1.push_preauth_cookie k v2 t2).1
        = (ctx.push_preauth_cookie k v1 t1).1 ∧
    ((ctx.push_preauth_cookie k v1 t1).1.push_preauth_cookie k v2 t2).2 = [] ∧
    (∀ c2, ((ctx.push_preauth_cookie k v1 t1).1.push_preauth_cookie k v2 t2).1.preauth_cache
        = some c2 → c2.liveEntryFor k t2 = some ⟨k, v1, t1⟩) := by
  have hfind := liveEntryFor_insert c.entries k v1 t1 t2 ht
  refine ⟨?_, ?_, ?_⟩
  · simp [Context.push_preauth_cookie, hc, PreauthCache.getWith, hno, hfind]
  · simp [Context.push_preauth_cookie, hc, PreauthCache.getWith, hno, hfind]
  · intro c2 hc2
    simp [Context.push_preauth_cookie, hc, PreauthCache.getWith, hno, hfind] at hc2
    rw [← hc2]
    exact hfind

/-- C3 witness: concrete double push on an enabled empty cache. -/
theorem push_preauth_cookie_idempotent_witness :
    ((Context.push_preauth_cookie
        ⟨none, none, none, none, none, none, none, none, some ⟨[]⟩⟩ "k" "a" 0).1.push_preauth_cookie
          "k" "b" 1).1
      = (Context.push_preauth_cookie
        ⟨none, none, none, none, none, none, none, none, some ⟨[]⟩⟩ "k" "a" 0).1 ∧
    ((Context.push_preauth_cookie
        ⟨none, none, none, none, none, none, none, none, some ⟨[]⟩⟩ "k" "a" 0).1.push_preauth_cookie
          "k" "b" 1).2 = [] ∧
    (∀ c2, ((Context.push_preauth_cookie
        ⟨none, none, none, none, none, none, none, none, some ⟨[]⟩⟩ "k" "a" 0).1.push_preauth_cookie
          "k" "b" 1).1.preauth_cache = some c2 →
        c2.liveEntryFor "k" 1 = some ⟨"k", "a", 0⟩) :=
  push_preauth_cookie_idempotent
    ⟨none, none, none, none, none, none, none, none, some ⟨[]⟩⟩ ⟨[]⟩
    "k" "a" "b" 0 1 rfl rfl (by decide)

/-! ### C5 — enable_preauth (has_any) -/

/-- A context whose preauth cache holds exactly one entry, inserted at time
0. -/
def staleCacheCtx : Context :=
  ⟨none, none, none, none, none, none, none, none, some ⟨[⟨"k", "v", 0⟩]⟩⟩

/-- C5 counterexample: at time preauthTTL the single entry (inserted at 0)
has expired, so no live entry exists and pop returns none for every draw —
yet enable_preauth still returns true, because weighted_size counts entries
the housekeeper has not evicted yet.  This refutes the claimed equivalence
between has_any and the existence of a live entry. -/
theorem enable_preauth_counterexample :
    staleCacheCtx.enable_preauth = true ∧
    PreauthCache.liveEntries ⟨[⟨"k", "v", 0⟩]⟩ preauthTTL = [] ∧
    staleCacheCtx.pop_preauth_cookie preauthTTL 0 = none := by
  refine ⟨rfl, ?_, ?_⟩ <;>
    simp [staleCacheCtx, Context.pop_preauth_cookie, PreauthCache.liveEntries,
      PreauthEntry.isLive, preauthTTL]

/-- C5 amended: enable_preauth is true iff the cache is present and holds at
least one not-yet-evicted entry; expired entries keep counting until the
cache housekeeping evicts them, so the gate can report true although every
entry is past its TTL (and pop would return none). -/
theorem enable_preauth_amended (ctx : Context) :
    ctx.enable_preauth = true ↔
      ∃ c, ctx.preauth_cache = some c ∧ c.entries ≠ [] := by
  cases hc : ctx.preauth_cache with
  | none => simp [Context.enable_preauth, hc]
  | some c =>
      simp [Context.enable_preauth, hc, PreauthCache.weighted_size,
        Nat.pos_iff_ne_zero, List.length_eq_zero]

/-! ### C4 — init_har bootstrap policy -/

/-- C4: evidence-file bootstrap policy.  With an explicitly configured path
the record is fresh (state true) and the filesystem is untouched — the
content is never read, so the result is the same for every filesystem in
which the path exists.  With no configured path, a pre-existing default file
under the home directory yields freshness = (content non-empty) and no
filesystem change, while a missing default file is created empty with
freshness false. -/
theorem init_har_bootstrap_policy (t : ArkoseType) (dfn home : String) (fs : Fs) :
    (∀ p, fs.isFile p = true →
      init_har t (some p) dfn (some home) fs = .ok ⟨⟨p, true, p⟩, fs, []⟩) ∧
    (∀ content, fs.read (home ++ "/" ++ dfn) = some content →
      init_har t none dfn (some home) fs
        = .ok ⟨⟨home ++ "/" ++ dfn, !(content == ""), home ++ "/" ++ dfn⟩, fs, []⟩) ∧
    (fs.read (home ++ "/" ++ dfn) = none →
      init_har t none dfn (some home) fs
        = .ok ⟨⟨home ++ "/" ++ dfn, false, home ++ "/" ++ dfn⟩,
            fs.createEmpty (home ++ "/" ++ dfn),
            [Effect.logInfo ("Create default HAR empty file: " ++ (home ++ "/" ++ dfn))]⟩) := by
  refine ⟨?_, ?_, ?_⟩
  · intro p hp
    simp [init_har, watch_har_file, hp]
  · intro content hcont
    have hf : fs.isFile (home ++ "/" ++ dfn) = true := by
      simp [Fs.isFile, hcont]
    simp [init_har, watch_har_file, hcont, hf]
  · intro hnone
    have hf : (fs.createEmpty (home ++ "/" ++ dfn)).isFile (home ++ "/" ++ dfn) = true := by
      simp [Fs.isFile, Fs.read_createEmpty_self fs _ hnone]
    simp [init_har, watch_har_file, hnone, hf]

/-- C4 witness: bootstrapping the chat3 default file on an empty filesystem
creates it empty and reports it not fresh. -/
theorem init_har_bootstrap_policy_witness :
    init_har .Chat3 none ".chat3.openai.com.har" (some "/h") ⟨[]⟩
      = .ok ⟨⟨"/h" ++ "/" ++ ".chat3.openai.com.har", false,
              "/h" ++ "/" ++ ".chat3.openai.com.har"⟩,
          Fs.createEmpty ⟨[]⟩ ("/h" ++ "/" ++ ".chat3.openai.com.har"),
          [Effect.logInfo ("Create default HAR empty file: "
            ++ ("/h" ++ "/" ++ ".chat3.openai.com.har"))]⟩ :=
  (init_har_bootstrap_policy .Chat3 ".chat3.openai.com.har" "/h" ⟨[]⟩).2.2 rfl

/-! ### Concrete scenarios used by the singleton claims -/

/-- The all-absent Context (used as a match fallback in scenario defs). -/
def emptyCtx : Context :=
  ⟨none, none, none, none, none, none, none, none, none⟩

/-- Environment with a home directory and both load balancer constructions
succeeding. -/
def exEnv : Env := ⟨some "/home/u", some ⟨0⟩, some ⟨1⟩⟩

/-- Arguments configuring all four evidence files explicitly. -/
def exArgsExplicit : ContextArgs :=
  { arkose_chat3_har_file := some "/a.har",
    arkose_chat4_har_file := some "/b.har",
    arkose_auth_har_file := some "/c.har",
    arkose_platform_har_file := some "/d.har" }

/-- A filesystem holding the four explicitly configured evidence files. -/
def exFs : Fs :=
  ⟨[("/a.har", "x"), ("/b.har", "y"), ("/c.har", "z"), ("/d.har", "w")]⟩

/-- Fresh process state over exFs. -/
def exSt0 : GlobalState := ⟨none, none, exFs, []⟩

/-- The state after a first successful init with exArgsExplicit. -/
def exSt1 : GlobalState :=
  match init exArgsExplicit exEnv exSt0 with
  | .ok st => st
  | .error _ => exSt0

/-- Fresh process state over the empty filesystem (for the lazy
get_instance scenario, which creates the four default files). -/
def exStEmpty : GlobalState := ⟨none, none, ⟨[]⟩, []⟩

/-- The pair produced by the first lazy get_instance on exStEmpty. -/
def exGIRes : Context × GlobalState :=
  match get_instance exEnv exStEmpty with
  | .ok p => p
  | .error _ => (emptyCtx, exStEmpty)

/-- The pair produced by Context::new with default arguments on exStEmpty. -/
def exNewRes : Context × GlobalState :=
  match Context.new ContextArgs.default exEnv exStEmpty with
  | .ok p => p
  | .error _ => (emptyCtx, exStEmpty)

/-! ### C1 — init called twice -/

/-- C1 counterexample: a first init publishes the Context; the second init
call with the same (valid) configuration does not complete as a no-op that
logs "Failed to initialize context" — it panics with "Failed to set har map"
inside the second run of Context::new, before CTX.set is ever reached. -/
theorem init_twice_counterexample :
    init exArgsExplicit exEnv exSt0 = .ok exSt1 ∧
    exSt1.ctx.isSome = true ∧
    init exArgsExplicit exEnv exSt1 = .error "Failed to set har map" :=
  ⟨rfl, rfl, rfl⟩

/-- C1 amended: once the HAR map is published (which every successful first
construction does), any further init call panics instead of logging the
CTX.set error: Context::new re-runs its bootstrap side effects and then
aborts at the HAR.set expect, so the error-log branch of init is
unreachable and the already-published Context is never replaced. -/
theorem init_second_call_panics (args : ContextArgs) (env : Env) (st : GlobalState)
    (hh : st.har.isSome = true) :
    ∃ e, init args env st = .error e := by
  unfold init
  cases hnew : Context.new args env st with
  | error e => exact ⟨e, rfl⟩
  | ok p =>
      obtain ⟨r3, r4, ra, rp, clb, alb, _, _, _, _, hnone, _⟩ :=
        Context.new_ok args env st p.1 p.2 (by rw [hnew])
      rw [hnone] at hh
      simp at hh

/-- C1 witness: the amended statement at the concrete published state. -/
theorem init_second_call_panics_witness :
    exSt1.har.isSome = true ∧ ∃ e, init exArgsExplicit exEnv exSt1 = .error e :=
  ⟨rfl, init_second_call_panics exArgsExplicit exEnv exSt1 rfl⟩

/-! ### C8 — get_instance lazy exactly-once construction -/

/-- C8: whenever get_instance returns, the returned Context is the published
singleton, and every further get_instance call returns the same Context with
the state completely unchanged — construction (and its file/watch side
effects) ran at most once.  The OnceLock guarantee that concurrent first
accesses run the initializer once is modelled by get_or_init being a single
atomic step. -/
theorem get_instance_exactly_once (env : Env) (st : GlobalState)
    (c : Context) (st2 : GlobalState)
    (h : get_instance env st = .ok (c, st2)) :
    st2.ctx = some c ∧ get_instance env st2 = .ok (c, st2) := by
  unfold get_instance at h
  cases hst : st.ctx with
  | some c0 =>
      rw [hst] at h
      simp at h
      obtain ⟨rfl, rfl⟩ := h
      simp [get_instance, hst]
  | none =>
      rw [hst] at h
      cases hnew : Context.new ContextArgs.default env st with
      | error e =>
          rw [hnew] at h
          simp at h
      | ok p =>
          obtain ⟨c0, stx⟩ := p
          rw [hnew] at h
          simp at h
          obtain ⟨rfl, rfl⟩ := h
          simp [get_instance]

/-- C8 witness: the lazy first construction over the empty filesystem. -/
theorem get_instance_exactly_once_witness :
    exGIRes.2.ctx = some exGIRes.1 ∧
      get_instance exEnv exGIRes.2 = .ok (exGIRes.1, exGIRes.2) :=
  get_instance_exactly_once exEnv exStEmpty exGIRes.1 exGIRes.2 rfl

/-! ### C10 — client accessors never hit their panic branch -/

/-- C10: every Context actually produced by Context::new has both load
balancer fields present, so client() and auth_client() return a client and
never reach their "not initialized" expect branches. -/
theorem client_accessors_initialized (args : ContextArgs) (env : Env)
    (st : GlobalState) (c : Context) (st2 : GlobalState)
    (h : Context.new args env st = .ok (c, st2)) :
    ∃ lb alb, c.client = .ok lb ∧ c.auth_client = .ok alb := by
  obtain ⟨r3, r4, ra, rp, clb, alb, _, _, _, _, _, _, _, hcdef, _⟩ :=
    Context.new_ok args env st c st2 h
  subst hcdef
  exact ⟨clb.next, alb.next, rfl, rfl⟩

/-- C10 witness: the default construction on the empty filesystem. -/
theorem client_accessors_initialized_witness :
    ∃ lb alb, exNewRes.1.client = .ok lb ∧ exNewRes.1.auth_client = .ok alb :=
  client_accessors_initialized ContextArgs.default exEnv exStEmpty
    exNewRes.1 exNewRes.2 rfl

/-! ### C7 — bootstrapped paths exist -/

/-- C7: after Context::new returns successfully, arkose_har_path succeeds
for every challenge type and the returned path exists on the resulting
filesystem: default paths were read or created during bootstrap, and
explicitly configured paths must have existed for their (fatal-on-failure)
watch setup to succeed. -/
theorem arkose_har_path_exists (args : ContextArgs) (env : Env) (st : GlobalState)
    (c : Context) (st2 : GlobalState) (t : ArkoseType)
    (h : Context.new args env st = .ok (c, st2)) :
    ∃ b p, arkose_har_path st2 t = .ok (b, p) ∧ st2.fs.isFile p = true := by
  obtain ⟨r3, r4, ra, rp, clb, alb, h3, h4, ha, hp, hnone, hcl, hal, hcdef, hst2⟩ :=
    Context.new_ok args env st c st2 h
  have e3 : rp.fs.isFile r3.har.path = true :=
    init_har_fs_mono _ _ _ _ _ _ _ hp
      (init_har_fs_mono _ _ _ _ _ _ _ ha
        (init_har_fs_mono _ _ _ _ _ _ _ h4
          (init_har_path_exists _ _ _ _ _ _ h3)))
  have e4 : rp.fs.isFile r4.har.path = true :=
    init_har_fs_mono _ _ _ _ _ _ _ hp
      (init_har_fs_mono _ _ _ _ _ _ _ ha
        (init_har_path_exists _ _ _ _ _ _ h4))
  have ea : rp.fs.isFile ra.har.path = true :=
    init_har_fs_mono _ _ _ _ _ _ _ hp (init_har_path_exists _ _ _ _ _ _ ha)
  have ep : rp.fs.isFile rp.har.path = true :=
    init_har_path_exists _ _ _ _ _ _ hp
  subst hst2
  cases t with
  | Chat3 => exact ⟨r3.har.state, r3.har.path, rfl, e3⟩
  | Chat4 => exact ⟨r4.har.state, r4.har.path, rfl, e4⟩
  | Auth0 => exact ⟨ra.har.state, ra.har.path, rfl, ea⟩
  | Platform => exact ⟨rp.har.state, rp.har.path, rfl, ep⟩

/-- C7 witness: the default construction on the empty filesystem, at
challenge type Chat3. -/
theorem arkose_har_path_exists_witness :
    ∃ b p, arkose_har_path exNewRes.2 .Chat3 = .ok (b, p) ∧
      exNewRes.2.fs.isFile p = true :=
  arkose_har_path_exists ContextArgs.default exEnv exStEmpty
    exNewRes.1 exNewRes.2 .Chat3 rfl

/-! ### Helper lemmas about the HAR map -/

/-- Setting freshness for type t rewrites exactly the record of t (to state
true) and leaves every other lookup unchanged. -/
lemma harLookup_setFresh (t t2 : ArkoseType) (m : List (ArkoseType × Har)) :
    harLookup t2 (harSetFresh t m)
      = (harLookup t2 m).map
          (fun h => if t2 = t then { h with state := true } else h) := by
  induction m with
  | nil => simp [harLookup, harSetFresh]
  | cons p ps ih =>
      obtain ⟨k, har⟩ := p
      by_cases hkt : k = t
      · subst hkt
        by_cases ht2 : k = t2
        · subst ht2
          simp [harLookup, harSetFresh, List.find?_cons]
        · have ht2' : ¬(t2 = k) := fun hc => ht2 hc.symm
          simpa [harLookup, harSetFresh, List.find?_cons, ht2, ht2'] using ih
      · by_cases hk2 : k = t2
        · subst hk2
          simp [harLookup, harSetFresh, List.find?_cons, hkt]
        · simpa [harLookup, harSetFresh, List.find?_cons, hkt, hk2] using ih

/-! ### C6 — the watch callback on a modify event -/

/-- C6: on a modify event for a single path, the callback succeeds (also
when the path is not convertible to a str), sets the freshness state of the
type to true in the shared map (held under the write lock for the update),
logs the observation, and then either calls the invalidator (arkose har
clear) with the path string or logs the conversion failure and continues. -/
theorem watch_callback_modify_spec (t : ArkoseType) (m : List (ArkoseType × Har))
    (h : Har) (st : GlobalState) (p : EventPath)
    (hhar : st.har = some m) (hrec : harLookup t m = some h) :
    har_watch_callback t ⟨.Modify, [p]⟩ st
      = .ok { st with
          har := some (harSetFresh t m),
          effects := st.effects
            ++ [Effect.logInfo ("HAR file changes observed: " ++ p.display)]
            ++ (match p.toStr with
                | some s => [Effect.harClear s]
                | none => [Effect.logWarn "Failed to convert path to string"]) } ∧
    harLookup t (harSetFresh t m) = some { h with state := true } := by
  constructor
  · cases hps : p.toStr <;>
      simp [har_watch_callback, watchCallbackPaths, hhar, hrec, hps]
  · rw [harLookup_setFresh, hrec]
    simp

/-- C6 witness: a modify event on the watched chat3 evidence file flips its
state to true and emits the invalidation call. -/
theorem watch_callback_modify_spec_witness :
    har_watch_callback .Chat3 ⟨.Modify, [⟨"/a.har", some "/a.har"⟩]⟩
        ⟨none, some [(.Chat3, ⟨"/a.har", false, "/a.har"⟩)], ⟨[]⟩, []⟩
      = .ok ⟨none, some [(.Chat3, ⟨"/a.har", true, "/a.har"⟩)], ⟨[]⟩,
          [Effect.logInfo ("HAR file changes observed: " ++ "/a.har"),
           Effect.harClear "/a.har"]⟩ ∧
    harLookup .Chat3 [(.Chat3, ⟨"/a.har", true, "/a.har"⟩)]
      = some ⟨"/a.har", true, "/a.har"⟩ :=
  watch_callback_modify_spec .Chat3 [(.Chat3, ⟨"/a.har", false, "/a.har"⟩)]
    ⟨"/a.har", false, "/a.har"⟩
    ⟨none, some [(.Chat3, ⟨"/a.har", false, "/a.har"⟩)], ⟨[]⟩, []⟩
    ⟨"/a.har", some "/a.har"⟩ rfl rfl

/-! ### C9 — freshness is monotone under the watch callback -/

/-- The per-path loop of the watch callback never sets any freshness state
to false: a record that was true before is still true afterwards. -/
lemma watchCallbackPaths_mono (t t2 : ArkoseType) (ps : List EventPath) :
    ∀ st st2, watchCallbackPaths t ps st = .ok st2 →
      ∀ m2 h2, st2.har = some m2 → harLookup t2 m2 = some h2 →
      (∀ m h, st.har = some m → harLookup t2 m = some h → h.state = true) →
      h2.state = true := by
  induction ps with
  | nil =>
      intro st st2 hok m2 h2 hm2 hl2 hinv
      simp [watchCallbackPaths] at hok
      subst hok
      exact hinv m2 h2 hm2 hl2
  | cons p ps ih =>
      intro st st2 hok m2 h2 hm2 hl2 hinv
      cases hm : st.har with
      | none => simp [watchCallbackPaths, hm] at hok
      | some m =>
          cases hrec : harLookup t m with
          | none =>
              simp [watchCallbackPaths, hm, hrec] at hok
              refine ih _ _ hok m2 h2 hm2 hl2 ?_
              intro m' h' hm' hl'
              have hmm : m = m' := by simpa using hm'
              exact hinv m' h' (hmm ▸ hm) hl'
          | some h0 =>
              simp [watchCallbackPaths, hm, hrec] at hok
              refine ih _ _ hok m2 h2 hm2 hl2 ?_
              intro m' h' hm' hl'
              have hm'' : harSetFresh t m = m' := by simpa using hm'
              rw [← hm'', harLookup_setFresh] at hl'
              cases hl0 : harLookup t2 m with
              | none => rw [hl0] at hl'; simp at hl'
              | some hh =>
                  rw [hl0] at hl'
                  simp at hl'
                  have hstate : hh.state = true := hinv m hh hm hl0
                  rw [← hl']
                  by_cases ht : t2 = t
                  · simp [ht]
                  · simp [ht, hstate]

/-- C9: freshness is monotone after construction — the watch callback (the
only post-construction writer of the evidence map) never resets a true
freshness state to false, for any challenge type and any event. -/
theorem freshness_monotone (t : ArkoseType) (ev : WatchEvent)
    (st st2 : GlobalState) (t2 : ArkoseType) (m m2 : List (ArkoseType × Har))
    (h1 h2 : Har)
    (hcb : har_watch_callback t ev st = .ok st2)
    (hm : st.har = some m) (hm2 : st2.har = some m2)
    (hl : harLookup t2 m = some h1) (hl2 : harLookup t2 m2 = some h2)
    (hs : h1.state = true) : h2.state = true := by
  obtain ⟨kind, paths⟩ := ev
  have hinv : ∀ m' h', st.har = some m' → harLookup t2 m' = some h' → h'.state = true := by
    intro m' h' hm' hl'
    rw [hm] at hm'
    obtain rfl : m = m' := by simpa using hm'
    rw [hl] at hl'
    obtain rfl : h1 = h' := by simpa using hl'
    exact hs
  cases kind with
  | Other =>
      simp [har_watch_callback] at hcb
      subst hcb
      exact hinv m2 h2 hm2 hl2
  | Modify =>
      exact watchCallbackPaths_mono t t2 paths st st2 hcb m2 h2 hm2 hl2 hinv

/-- C9 witness: a modify event on a record that is already fresh leaves it
fresh. -/
theorem freshness_monotone_witness :
    (⟨"/a.har", true, "/a.har"⟩ : Har).state = true :=
  freshness_monotone .Chat3 ⟨.Modify, [⟨"/a.har", some "/a.har"⟩]⟩
    ⟨none, some [(.Chat3, ⟨"/a.har", true, "/a.har"⟩)], ⟨[]⟩, []⟩
    ⟨none, some [(.Chat3, ⟨"/a.har", true, "/a.har"⟩)], ⟨[]⟩,
      [Effect.logInfo ("HAR file changes observed: " ++ "/a.har"),
       Effect.harClear "/a.har"]⟩
    .Chat3 [(.Chat3, ⟨"/a.har", true, "/a.har"⟩)]
    [(.Chat3, ⟨"/a.har", true, "/a.har"⟩)]
    ⟨"/a.har", true, "/a.har"⟩ ⟨"/a.har", true, "/a.har"⟩
    rfl rfl rfl rfl rfl rfl

end NinjaContext
